import Mathlib

/-!
Verification of the hfsort call-graph clustering tool.

The development shallowly embeds the clustering core of the repository:
the data model of `src/common/classes.py` (`Node`, `Predecessor`), the
cluster model and greedy clustering engine of `src/C3Algorithm.py`
(`Cluster`, `HFSorter`), and the graph-building front end of `hfsort.py`
(`get_symbol_size`, `create_new_node`,
`parse_and_combine_information_from_multiple_files`).

Machine integers are embedded as `Nat`; Python floats are embedded as
exact rationals `ℚ` (`round(x, 4)` becomes `round4`, round-half-to-even
at four decimal places). Fallible code (Python exceptions, `sys.exit`)
is embedded in `Except String`.
-/

/-- Python `round(q, 4)`: round half to even at four decimal places,
over exact rationals. -/
def round4 (q : ℚ) : ℚ :=
  let f : ℤ := (q * 10000).floor
  let r : ℚ := q * 10000 - f
  let n : ℤ :=
    if r < 1/2 then f
    else if 1/2 < r then f + 1
    else if f % 2 = 0 then f else f + 1
  (n : ℚ) / 10000

/-- `Predecessor` from `src/common/classes.py`: one distinct caller of a
node. `weight_to_target = samples / total_samples * 100` (a percentage). -/
structure Predecessor where
  function_name : String
  samples_to_target : Nat
  weight_to_target : ℚ
deriving Repr, DecidableEq

/-- `Predecessor.__init__`: built from a report row with fields
`source_symbol` and `samples`, given the section's total sample count. -/
def Predecessor.ofRow (source_symbol : String) (samples : Nat)
    (total_samples : Nat) : Predecessor :=
  { function_name := source_symbol
    samples_to_target := samples
    weight_to_target := ((samples : ℚ) / (total_samples : ℚ)) * 100 }

/-- `Node` from `src/common/classes.py`: one distinct callee function.
Python defines `__eq__` solely by `function_name`; lookups below compare
names, matching that. -/
structure Node where
  function_name : String
  size : Nat
  global_samples : Nat := 0
  global_weight : ℚ := 0
  predecessors : List Predecessor := []
deriving Repr, DecidableEq

/-- `Node.add_samples`: add samples and recompute the rounded global
weight. -/
def Node.add_samples (n : Node) (samples total_samples : Nat) : Node :=
  let gs := n.global_samples + samples
  { n with global_samples := gs
           global_weight := round4 ((gs : ℚ) / (total_samples : ℚ)) }

/-- `Node.add_predecessor`: append a predecessor record. -/
def Node.add_predecessor (n : Node) (p : Predecessor) : Node :=
  { n with predecessors := n.predecessors ++ [p] }

/-- `Node.get_biggest_predecessor`: `max(self.predecessors, key=lambda
x: x.samples_to_target)`, or `None` when there are no predecessors.
Python `max` keeps the first element among ties, so a later element
replaces the accumulator only when strictly greater. -/
def Node.get_biggest_predecessor (n : Node) : Option Predecessor :=
  match n.predecessors with
  | [] => none
  | p :: ps =>
      some (ps.foldl
        (fun acc x =>
          if acc.samples_to_target < x.samples_to_target then x else acc) p)

/-- `Cluster` from `src/C3Algorithm.py`. `__init__` stores the configured
page size, fixes `k_caller_degrade_factor = 8`, starts from a single node
and calls `_update_density`. -/
structure Cluster where
  page_size : Nat
  k_caller_degrade_factor : ℚ
  nodes : List Node
  density : ℚ
  total_time : Nat
  total_size : Nat
deriving Repr, DecidableEq

/-- `Cluster._update_density` (which calls `_update_time` and
`_update_size`): recompute the aggregate totals from the member nodes and
the rounded density `total_time / total_size`. The division is only ever
reached with a positive `total_size` (see the C10 invariant theorem). -/
def Cluster.update_density (c : Cluster) : Cluster :=
  let tt := (c.nodes.map Node.global_samples).sum
  let ts := (c.nodes.map Node.size).sum
  { c with total_time := tt
           total_size := ts
           density := round4 ((tt : ℚ) / (ts : ℚ)) }

/-- `Cluster.__init__`: a fresh singleton cluster for one node. -/
def Cluster.init (node : Node) (pagesize : Nat) : Cluster :=
  Cluster.update_density
    { page_size := pagesize
      k_caller_degrade_factor := 8
      nodes := [node]
      density := 0
      total_time := 0
      total_size := 0 }

/-- `Cluster.check_cluster_merge`: returns `true` to REJECT the merge
(page-size overflow first, then the density guard); otherwise appends the
other cluster's nodes, recomputes the totals, and returns `false`.
The pair carries the (possibly mutated) source cluster. -/
def Cluster.check_cluster_merge (c other : Cluster) : Bool × Cluster :=
  if c.page_size < c.total_size + other.total_size then
    (true, c)
  else
    let new_density : ℚ :=
      ((c.total_time : ℚ) + (other.total_time : ℚ)) /
        ((c.total_size : ℚ) + (other.total_size : ℚ))
    if new_density * c.k_caller_degrade_factor < c.density then
      (true, c)
    else
      (false, Cluster.update_density { c with nodes := c.nodes ++ other.nodes })

/-- Command-line configuration relevant to the clustering engine:
`--page-size` (default 4096), `--min-probability` (`args.k_min_prob`,
default `None`), and whether the log level is `DEBUG`. -/
structure Args where
  pagesize : Nat
  k_min_prob : Option ℚ
  loglevel_debug : Bool
deriving Repr, DecidableEq

/-- Python `sorted(l, key=lambda x: x.global_samples, reverse=True)`:
the unique stable sort placing larger sample counts first (stable sorts
by a total preorder are unique, so insertion sort is a faithful model of
Timsort here). -/
def sortNodesBySamplesDesc (l : List Node) : List Node :=
  l.insertionSort (fun a b => b.global_samples ≤ a.global_samples)

/-- Python `sorted(l, key=lambda x: x.density, reverse=True)`: the
unique stable sort placing denser clusters first. -/
def sortClustersByDensityDesc (l : List Cluster) : List Cluster :=
  l.insertionSort (fun a b => b.density ≤ a.density)

/-- The mutable state of `HFSorter`: the sorted node list, the active
cluster list, the (conditionally set, never read) degrade-factor
attribute from `args.k_min_prob`, the debug flag, and the
no-usable-predecessor counter `index` of `sort`. -/
structure SorterState where
  node_list : List Node
  cluster_list : List Cluster
  k_caller_degrade_factor_attr : Option ℚ
  loglevel_debug : Bool
  index : Nat
deriving Repr, DecidableEq

/-- `HFSorter.__init__`: sort the nodes by decreasing samples, create one
cluster per node in the original list order, and store `args.k_min_prob`
in `self.k_caller_degrade_factor` when it is supplied. `index` is the
counter local to `sort`, initialized to 0 there. -/
def HFSorter.init (args : Args) (node_list : List Node) : SorterState :=
  { node_list := sortNodesBySamplesDesc node_list
    cluster_list := node_list.map (fun node => Cluster.init node args.pagesize)
    k_caller_degrade_factor_attr := args.k_min_prob
    loglevel_debug := args.loglevel_debug
    index := 0 }

/-- `HFSorter.K_MIN_ARC_PROBABILITY = 0.1`. -/
def K_MIN_ARC_PROBABILITY : ℚ := 1/10

/-- `HFSorter._merge_clusters`: fetch both clusters, run the admission
test, and on acceptance store the merged source at `source_index` and
delete the entry at `target_index` (in that order, as the Python code
does). A rejected merge leaves the list untouched. -/
def HFSorter.merge_clusters (cluster_list : List Cluster)
    (source_index target_index : Nat) : List Cluster :=
  match cluster_list[source_index]?, cluster_list[target_index]? with
  | some source_cluster, some target_cluster =>
      match Cluster.check_cluster_merge source_cluster target_cluster with
      | (true, _) => cluster_list
      | (false, merged) =>
          (cluster_list.set source_index merged).eraseIdx target_index
  | _, _ => cluster_list

/-- `HFSorter._get_most_likely_predecessor`: the predecessor with the
most samples, dropped when its weight is below
`K_MIN_ARC_PROBABILITY`, then resolved to the node of the same
function name in `node_list` (`None` when absent). -/
def HFSorter.get_most_likely_predecessor (node_list : List Node)
    (target_node : Node) : Option Node :=
  match target_node.get_biggest_predecessor with
  | none => none
  | some predecessor =>
      if predecessor.weight_to_target < K_MIN_ARC_PROBABILITY then
        none
      else
        node_list.find? (fun node =>
          node.function_name = predecessor.function_name)

/-- `HFSorter._find_cluster`: index of the first active cluster holding a
node equal (by function name, per `Node.__eq__`) to the searched node;
`none` models the fatal `sys.exit` path taken by the caller below. -/
def HFSorter.find_cluster (cluster_list : List Cluster) (node : Node) :
    Option Nat :=
  cluster_list.findIdx? (fun cluster =>
    cluster.nodes.any (fun cluster_node =>
      cluster_node.function_name = node.function_name))

/-- The `sys.exit` diagnostic of `HFSorter._find_cluster`. -/
def findClusterError (node : Node) : String :=
  "ERROR Cluster index for node " ++ node.function_name ++
    " could not be found"

/-- One iteration of the loop in `HFSorter.sort`: skip (counting) when no
usable predecessor resolves, abort when a cluster lookup fails, skip when
both nodes already share a cluster, otherwise attempt the merge. -/
def HFSorter.sort_step (st : SorterState) (node : Node) :
    Except String SorterState :=
  match HFSorter.get_most_likely_predecessor st.node_list node with
  | none => .ok { st with index := st.index + 1 }
  | some predecessor_node =>
      match HFSorter.find_cluster st.cluster_list node with
      | none => .error (findClusterError node)
      | some source_cluster_index =>
          match HFSorter.find_cluster st.cluster_list predecessor_node with
          | none => .error (findClusterError predecessor_node)
          | some target_cluster_index =>
              if source_cluster_index = target_cluster_index then
                .ok st
              else
                let merged := HFSorter.merge_clusters st.cluster_list
                  source_cluster_index target_cluster_index
                .ok { st with cluster_list := merged }

/-- The main loop of `HFSorter.sort` over the (re)sorted node list. -/
def HFSorter.sort_loop (nodes : List Node) (st : SorterState) :
    Except String SorterState :=
  nodes.foldlM HFSorter.sort_step st

/-- `HFSorter._sort_functions_in_clusters`: walk the clusters in
decreasing density order; in debug mode prepend the alternating marker
(`symbols[index % 2]`) and two spaces to each name. -/
def HFSorter.sort_functions_in_clusters (cluster_list : List Cluster)
    (debug : Bool) : List String :=
  ((sortClustersByDensityDesc cluster_list).enum.map
    (fun p =>
      p.2.nodes.map (fun node =>
        if debug then
          (if p.1 % 2 = 0 then "+" else "#") ++ "  " ++ node.function_name
        else
          node.function_name))).flatten

/-- `HFSorter.sort` composed with `HFSorter.__init__`: the full
clustering pass from the raw node list to the emitted name sequence, the
fatal cluster-lookup `exit` surfacing as `Except.error`. -/
def HFSorter.sort (args : Args) (node_list : List Node) :
    Except String (List String) :=
  let st := HFSorter.init args node_list
  match HFSorter.sort_loop (sortNodesBySamplesDesc st.node_list) st with
  | .error e => .error e
  | .ok st1 =>
      .ok (HFSorter.sort_functions_in_clusters st1.cluster_list
        st1.loglevel_debug)

/-- A row of the selected event section of the report: the fields read
by `hfsort.py` (`source_symbol`, `target_symbol`, `samples`, and the
optional embedded `symbol_size`). -/
structure Row where
  source_symbol : String
  target_symbol : String
  samples : Nat
  symbol_size : Option Nat
deriving Repr, DecidableEq

/-- Python `counter += 1` when the counter may have become `None`
(after the `(None, None)` return of `get_symbol_size`): `None + 1`
raises `TypeError`. -/
def pyIncr (c : Option Nat) : Except String (Option Nat) :=
  match c with
  | none => .error "TypeError: unsupported operand types for add: NoneType and int"
  | some k => .ok (some (k + 1))

/-- `symbol_size_list.get(ta_sy)` over the dict modeled as an
association list with distinct keys. -/
def lookupSize (lst : List (String × Nat)) (key : String) : Option Nat :=
  (lst.find? (fun kv => kv.1 = key)).map (fun kv => kv.2)

/-- `get_symbol_size` from `hfsort.py`. With no size table
(`if not symbol_size_list`) the code runs `int(element.get("symbol_size"))`,
which raises `TypeError` when the row carries no size field; with a size
table, a failed lookup falls back on the row's own size and yields the
`(None, None)` pair when that is also absent. The counter increments
only in debug mode. -/
def get_symbol_size (element : Row)
    (symbol_size_list : Option (List (String × Nat))) (ta_sy : String)
    (not_found_size_symbol : Option Nat) (debug : Bool) :
    Except String (Option Nat × Option Nat) :=
  if (symbol_size_list.getD []).isEmpty then
    match element.symbol_size with
    | none => .error "TypeError: int() argument must be a string, a bytes-like object or a number, not NoneType"
    | some s => .ok (some s, not_found_size_symbol)
  else
    match lookupSize (symbol_size_list.getD []) ta_sy with
    | some symbol_size => .ok (some symbol_size, not_found_size_symbol)
    | none => do
        let c1 ← if debug then pyIncr not_found_size_symbol
                 else .ok not_found_size_symbol
        match element.symbol_size with
        | none => .ok (none, none)
        | some s => .ok (some s, c1)

/-- Hexadecimal digit as accepted by the `[0-9a-fA-F]` character class. -/
def isHexDigitChar (c : Char) : Bool :=
  c.isDigit || ('a' ≤ c && c ≤ 'f') || ('A' ≤ c && c ≤ 'F')

/-- `is_hex` from `src/common/functions.py`: full match of
`^0x[0-9a-fA-F]+$`. -/
def is_hex (s : String) : Bool :=
  match s.data with
  | '0' :: 'x' :: rest => !rest.isEmpty && rest.all isHexDigitChar
  | _ => false

/-- `create_new_node` from `hfsort.py`: scan all rows sharing the target
symbol, accumulating `global_samples` from every row and one
`Predecessor` per row whose source differs from the target. -/
def create_new_node (values : List Row) (symbol_size : Nat) (ta_sy : String)
    (total_samples : Nat) : Node :=
  values.foldl
    (fun node el =>
      if el.target_symbol = ta_sy then
        let node1 := node.add_samples el.samples total_samples
        if el.source_symbol ≠ ta_sy then
          node1.add_predecessor
            (Predecessor.ofRow el.source_symbol el.samples total_samples)
        else node1
      else node)
    { function_name := ta_sy, size := symbol_size }

/-- Loop state of `parse_and_combine_information_from_multiple_files`:
the node list, the examined targets, and the diagnostic counters (the
missing-size counter may legitimately become `None`). -/
structure ParseState where
  node_list : List Node
  examined_nodes : List String
  not_found_size_symbols : Option Nat
  correct_symbols : Nat
  hex_symbols : Nat
deriving Repr, DecidableEq

/-- One iteration of the row loop of
`parse_and_combine_information_from_multiple_files`: skip already
examined targets, count and skip hex targets, resolve the size, and
either create the node or skip while counting the missing size. -/
def parse_step (symbol_size_list : Option (List (String × Nat)))
    (total_samples : Nat) (debug : Bool) (values : List Row)
    (st : ParseState) (element : Row) : Except String ParseState :=
  let ta_sy := element.target_symbol
  if st.examined_nodes.contains ta_sy then
    .ok st
  else if is_hex ta_sy then
    .ok { st with examined_nodes := st.examined_nodes ++ [ta_sy]
                  hex_symbols := st.hex_symbols + 1 }
  else
    let st1 := { st with correct_symbols := st.correct_symbols + 1 }
    match get_symbol_size element symbol_size_list ta_sy
        st1.not_found_size_symbols debug with
    | .error e => .error e
    | .ok (symbol_size, cnt) =>
        match symbol_size with
        | some (Nat.succ k) =>
            let node := create_new_node values (Nat.succ k) ta_sy total_samples
            .ok { st1 with not_found_size_symbols := cnt
                           node_list := st1.node_list ++ [node]
                           examined_nodes := st1.examined_nodes ++ [ta_sy] }
        | _ =>
            -- `symbol_size in [0, "unknown", None]`
            match (if debug then pyIncr cnt else .ok cnt) with
            | .error e => .error e
            | .ok c2 =>
                .ok { st1 with not_found_size_symbols := c2
                               examined_nodes := st1.examined_nodes ++ [ta_sy] }

/-- The row loop of `parse_and_combine_information_from_multiple_files`
for the selected section (section selection and log printing are outside
the claims and not modeled): builds the node list from the rows. -/
def parse_and_combine (values : List Row) (total_samples : Nat)
    (symbol_size_list : Option (List (String × Nat))) (debug : Bool) :
    Except String (List Node) :=
  match values.foldlM (parse_step symbol_size_list total_samples debug values)
      { node_list := []
        examined_nodes := []
        not_found_size_symbols := some 0
        correct_symbols := 0
        hex_symbols := 0 } with
  | .error e => .error e
  | .ok st => .ok st.node_list

/-- A prefix of the clustering run: the state after processing the first
`k` nodes of the processing order used by `HFSorter.sort` (all
intermediate cluster lists of a run arise this way; `k = 0` is the
initial state, large `k` the final one). -/
def HFSorter.runPrefix (args : Args) (node_list : List Node) (k : Nat) :
    Except String SorterState :=
  let st := HFSorter.init args node_list
  HFSorter.sort_loop ((sortNodesBySamplesDesc st.node_list).take k) st

/-- Second definition for the refinement claim C3, following the spec's
words (§4.4 step 1): "default `degrade_factor`=8 unless a
minimum-arc-probability override is supplied, in which case it
substitutes for `degrade_factor`" — a cluster whose degrade factor is
the override value when one is given. -/
def Cluster.init_with_factor (node : Node) (pagesize : Nat) (factor : ℚ) :
    Cluster :=
  Cluster.update_density
    { page_size := pagesize
      k_caller_degrade_factor := factor
      nodes := [node]
      density := 0
      total_time := 0
      total_size := 0 }

/-- Second definition for the refinement claim C3, following the spec's
words: the clustering pass in which every merge-admission test uses
`args.k_min_prob` in place of the default degrade factor 8 whenever the
override is supplied. -/
def HFSorter.sort_spec_override (args : Args) (node_list : List Node) :
    Except String (List String) :=
  let st : SorterState :=
    { node_list := sortNodesBySamplesDesc node_list
      cluster_list := node_list.map (fun node =>
        Cluster.init_with_factor node args.pagesize (args.k_min_prob.getD 8))
      k_caller_degrade_factor_attr := args.k_min_prob
      loglevel_debug := args.loglevel_debug
      index := 0 }
  match HFSorter.sort_loop (sortNodesBySamplesDesc st.node_list) st with
  | .error e => .error e
  | .ok st1 =>
      .ok (HFSorter.sort_functions_in_clusters st1.cluster_list
        st1.loglevel_debug)

/-- Well-formedness of an active cluster during a run over the node pool
`pool` with page size `ps`: the configured page size is stored, the
cached totals agree with the member nodes, the member list is a nonempty
sub-collection of the pool, and the cluster is either an untouched
initial singleton or fits the page (every accepted merge reestablishes
the bound). -/
def ClusterWF (ps : Nat) (pool : List Node) (c : Cluster) : Prop :=
  c.page_size = ps ∧
  c.total_size = (c.nodes.map Node.size).sum ∧
  c.total_time = (c.nodes.map Node.global_samples).sum ∧
  c.nodes ≠ [] ∧
  (∀ n ∈ c.nodes, n ∈ pool) ∧
  ((∃ n ∈ pool, c = Cluster.init n ps) ∨ c.total_size ≤ ps)

/-- The multiset of nodes held across a cluster list. -/
def clusterNodes (cs : List Cluster) : Multiset Node :=
  (cs.map (fun c => (c.nodes : Multiset Node))).sum

/-- Well-formedness of every active cluster in a sorter state. -/
def StateWF (ps : Nat) (pool : List Node) (st : SorterState) : Prop :=
  ∀ c ∈ st.cluster_list, ClusterWF ps pool c

/- Concrete inputs used by witnesses and counterexamples: Scenario A of
the spec (nodes `A`, `B`, `C`, with `A` the sole predecessor of `B`,
out of 190 total samples), Scenario D (page size 100, two size-60
clusters), and a one-row report for the graph-builder claims. -/

def exPredAB : Predecessor := Predecessor.ofRow "A" 80 190

def exNodeA : Node := { function_name := "A", size := 50, global_samples := 100 }

def exNodeB : Node :=
  { function_name := "B", size := 40, global_samples := 80
    predecessors := [exPredAB] }

def exNodeC : Node := { function_name := "C", size := 1000, global_samples := 10 }

def exArgs : Args := { pagesize := 4096, k_min_prob := none, loglevel_debug := false }

def exArgsOverride : Args :=
  { pagesize := 4096, k_min_prob := some 0, loglevel_debug := false }

def exNodeD1 : Node := { function_name := "D1", size := 60, global_samples := 90 }

def exNodeD2 : Node := { function_name := "D2", size := 60, global_samples := 70 }

def exClusterD1 : Cluster := Cluster.init exNodeD1 100

def exClusterD2 : Cluster := Cluster.init exNodeD2 100

def exRowFoo : Row :=
  { source_symbol := "bar", target_symbol := "foo", samples := 10
    symbol_size := some 30 }

def exRowNoSize : Row :=
  { source_symbol := "caller", target_symbol := "foo", samples := 5
    symbol_size := none }

def exArgsSmall : Args := { pagesize := 100, k_min_prob := none, loglevel_debug := false }

/-- The node the graph builder creates from the one-row report
`exRowFoo` (out of 100 total samples). -/
def exNodeFoo : Node := create_new_node [exRowFoo] 30 "foo" 100

/-- A sorter state whose active cluster list has been emptied, used to
exercise the fatal cluster-lookup path. -/
def exStateNoClusters : SorterState :=
  { node_list := [exNodeB, exNodeA]
    cluster_list := []
    k_caller_degrade_factor_attr := none
    loglevel_debug := false
    index := 0 }

deriving instance DecidableEq for Except

theorem Cluster.update_density_nodes (c : Cluster) :
    (Cluster.update_density c).nodes = c.nodes := rfl

theorem Cluster.update_density_page_size (c : Cluster) :
    (Cluster.update_density c).page_size = c.page_size := rfl

theorem Cluster.update_density_total_size (c : Cluster) :
    (Cluster.update_density c).total_size = (c.nodes.map Node.size).sum := rfl

theorem Cluster.update_density_total_time (c : Cluster) :
    (Cluster.update_density c).total_time =
      (c.nodes.map Node.global_samples).sum := rfl

/-- A rejecting run of the admission test returns the source cluster
unchanged. -/
theorem Cluster.check_rejected_eq (c o : Cluster)
    (h : (Cluster.check_cluster_merge c o).1 = true) :
    Cluster.check_cluster_merge c o = (true, c) := by
  by_cases h1 : c.page_size < c.total_size + o.total_size
  · unfold Cluster.check_cluster_merge
    simp [h1]
  · by_cases h2 : ((c.total_time : ℚ) + (o.total_time : ℚ)) /
        ((c.total_size : ℚ) + (o.total_size : ℚ)) *
        c.k_caller_degrade_factor < c.density
    · unfold Cluster.check_cluster_merge
      simp [h1, h2]
    · exfalso
      unfold Cluster.check_cluster_merge at h
      simp [h1, h2] at h

/-- An accepting run of the admission test returns the source extended
with the target's nodes and recomputed totals, and certifies that the
combined size fits the page. -/
theorem Cluster.check_accepted_eq (c o : Cluster)
    (h : (Cluster.check_cluster_merge c o).1 = false) :
    Cluster.check_cluster_merge c o =
      (false, Cluster.update_density { c with nodes := c.nodes ++ o.nodes }) ∧
    c.total_size + o.total_size ≤ c.page_size := by
  by_cases h1 : c.page_size < c.total_size + o.total_size
  · exfalso
    unfold Cluster.check_cluster_merge at h
    simp [h1] at h
  · by_cases h2 : ((c.total_time : ℚ) + (o.total_time : ℚ)) /
        ((c.total_size : ℚ) + (o.total_size : ℚ)) *
        c.k_caller_degrade_factor < c.density
    · exfalso
      unfold Cluster.check_cluster_merge at h
      simp [h1, h2] at h
    · constructor
      · unfold Cluster.check_cluster_merge
        simp [h1, h2]
      · omega

/-- Summing a list-valued map splits off any one position. -/
theorem map_sum_eraseIdx {α β : Type} (f : α → Multiset β) :
    ∀ (l : List α) (i : Nat) (h : i < l.length),
      (l.map f).sum = f (l.get ⟨i, h⟩) + ((l.eraseIdx i).map f).sum := by
  intro l
  induction l with
  | nil => intro i h; simp at h
  | cons x t ih =>
      intro i h
      cases i with
      | zero => simp
      | succ j =>
          have hj : j < t.length := by simpa using h
          simp only [List.map_cons, List.sum_cons, List.eraseIdx_cons_succ,
            List.get_cons_succ]
          rw [ih j hj]
          rw [← add_assoc, ← add_assoc, add_comm (f x)]

/-- Replacing one position of a list-valued map exchanges the summand. -/
theorem map_sum_set {α β : Type} (f : α → Multiset β) :
    ∀ (l : List α) (i : Nat) (a : α) (h : i < l.length),
      ((l.set i a).map f).sum + f (l.get ⟨i, h⟩) = (l.map f).sum + f a := by
  intro l
  induction l with
  | nil => intro i a h; simp at h
  | cons x t ih =>
      intro i a h
      cases i with
      | zero =>
          simp only [List.set_cons_zero, List.map_cons, List.sum_cons,
            List.get_cons_zero]
          abel
      | succ j =>
          have hj : j < t.length := by simpa using h
          simp only [List.set_cons_succ, List.map_cons, List.sum_cons,
            List.get_cons_succ]
          rw [add_assoc, ih j a hj, ← add_assoc]

/-- Unfolding of the sorter loop on a cons cell. -/
theorem HFSorter.sort_loop_cons (a : Node) (t : List Node) (st : SorterState) :
    HFSorter.sort_loop (a :: t) st =
      (HFSorter.sort_step st a).bind (fun s2 => HFSorter.sort_loop t s2) := by
  unfold HFSorter.sort_loop
  rw [List.foldlM_cons]
  rfl

/-- Unfolding of the sorter loop on the empty list. -/
theorem HFSorter.sort_loop_nil (st : SorterState) :
    HFSorter.sort_loop [] st = .ok st := rfl

/-- A merge step never creates or destroys nodes: the multiset of nodes
across the active cluster list is preserved whenever source and target
indices differ. -/
theorem clusterNodes_merge_clusters (cs : List Cluster) (si ti : Nat)
    (hne : si ≠ ti) :
    clusterNodes (HFSorter.merge_clusters cs si ti) = clusterNodes cs := by
  unfold HFSorter.merge_clusters
  cases hs : cs[si]? with
  | none => rfl
  | some sc =>
      cases ht : cs[ti]? with
      | none => rfl
      | some tc =>
          simp only
          cases hb : Cluster.check_cluster_merge sc tc with
          | mk rejected merged =>
              cases rejected with
              | true => rfl
              | false =>
                  simp only
                  have hsi : si < cs.length := by
                    rcases List.getElem?_eq_some.mp hs with ⟨h1, _⟩
                    exact h1
                  have hti : ti < cs.length := by
                    rcases List.getElem?_eq_some.mp ht with ⟨h1, _⟩
                    exact h1
                  have hsc : cs.get ⟨si, hsi⟩ = sc := by
                    rcases List.getElem?_eq_some.mp hs with ⟨h1, h2⟩
                    simpa using h2
                  have htc : cs.get ⟨ti, hti⟩ = tc := by
                    rcases List.getElem?_eq_some.mp ht with ⟨h1, h2⟩
                    simpa using h2
                  have hmn : merged.nodes = sc.nodes ++ tc.nodes := by
                    have hrej : (Cluster.check_cluster_merge sc tc).1 = false := by
                      rw [hb]
                    have := (Cluster.check_accepted_eq sc tc hrej).1
                    rw [hb] at this
                    have h2 := congrArg Prod.snd this
                    simp at h2
                    rw [h2]
                    rfl
                  have hXlen : ti < (cs.set si merged).length := by
                    simpa [List.length_set] using hti
                  have hXti : (cs.set si merged).get ⟨ti, hXlen⟩ = tc := by
                    have h1 := List.getElem_set_ne (l := cs) (a := merged)
                      hne hXlen
                    rw [List.get_eq_getElem, h1]
                    simpa [List.get_eq_getElem] using htc
                  have eq1 : clusterNodes (cs.set si merged) =
                      (tc.nodes : Multiset Node) +
                        clusterNodes ((cs.set si merged).eraseIdx ti) := by
                    have h2 := map_sum_eraseIdx
                      (fun c => (c.nodes : Multiset Node)) (cs.set si merged)
                      ti hXlen
                    rw [hXti] at h2
                    exact h2
                  have eq2 : clusterNodes (cs.set si merged) +
                      (sc.nodes : Multiset Node) =
                      clusterNodes cs + (merged.nodes : Multiset Node) := by
                    have h3 := map_sum_set
                      (fun c => (c.nodes : Multiset Node)) cs si merged hsi
                    rw [hsc] at h3
                    exact h3
                  have key : clusterNodes ((cs.set si merged).eraseIdx ti) +
                      ((tc.nodes : Multiset Node) + (sc.nodes : Multiset Node)) =
                      clusterNodes cs +
                      ((tc.nodes : Multiset Node) + (sc.nodes : Multiset Node)) := by
                    calc clusterNodes ((cs.set si merged).eraseIdx ti) +
                        ((tc.nodes : Multiset Node) + (sc.nodes : Multiset Node))
                        = clusterNodes (cs.set si merged) +
                            (sc.nodes : Multiset Node) := by
                          rw [eq1]; abel
                      _ = clusterNodes cs + (merged.nodes : Multiset Node) := eq2
                      _ = clusterNodes cs + ((sc.nodes : Multiset Node) +
                            (tc.nodes : Multiset Node)) := by
                          rw [hmn]
                          rfl
                      _ = clusterNodes cs + ((tc.nodes : Multiset Node) +
                            (sc.nodes : Multiset Node)) := by abel
                  exact add_right_cancel key

/-- Every cluster present after a merge step is either an old cluster or
the accepted merge of the two indexed clusters. -/
theorem mem_merge_clusters (cs : List Cluster) (si ti : Nat) (x : Cluster)
    (hx : x ∈ HFSorter.merge_clusters cs si ti) :
    x ∈ cs ∨ ∃ sc tc, cs[si]? = some sc ∧ cs[ti]? = some tc ∧
      (Cluster.check_cluster_merge sc tc).1 = false ∧
      x = (Cluster.check_cluster_merge sc tc).2 := by
  unfold HFSorter.merge_clusters at hx
  cases hs : cs[si]? with
  | none => rw [hs] at hx; simp at hx; exact Or.inl hx
  | some sc =>
      cases ht : cs[ti]? with
      | none => rw [hs, ht] at hx; simp at hx; exact Or.inl hx
      | some tc =>
          rw [hs, ht] at hx
          simp only at hx
          cases hb : Cluster.check_cluster_merge sc tc with
          | mk rejected merged =>
              rw [hb] at hx
              cases rejected with
              | true => exact Or.inl hx
              | false =>
                  simp only at hx
                  have hx2 := List.mem_of_mem_eraseIdx hx
                  rcases (List.mem_or_eq_of_mem_set hx2).symm with h | h
                  · right
                    refine ⟨sc, tc, rfl, rfl, ?_, ?_⟩
                    · rw [hb]
                    · rw [hb, h]
                  · exact Or.inl h

/-- The fields of the sorter state touched by one loop iteration: the
node list, override attribute and debug flag are untouched, and the
cluster list either stays or is the result of one merge attempt between
two distinct indices. -/
theorem sort_step_ok_shape (st : SorterState) (n : Node) (st1 : SorterState)
    (h : HFSorter.sort_step st n = .ok st1) :
    st1.node_list = st.node_list ∧
    st1.k_caller_degrade_factor_attr = st.k_caller_degrade_factor_attr ∧
    st1.loglevel_debug = st.loglevel_debug ∧
    (st1.cluster_list = st.cluster_list ∨
     ∃ si ti, si ≠ ti ∧
       st1.cluster_list = HFSorter.merge_clusters st.cluster_list si ti) := by
  unfold HFSorter.sort_step at h
  cases hp : HFSorter.get_most_likely_predecessor st.node_list n with
  | none =>
      simp only [hp, Except.ok.injEq] at h
      rw [← h]
      simp
  | some pred =>
      simp only [hp] at h
      cases hfs : HFSorter.find_cluster st.cluster_list n with
      | none => simp only [hfs] at h; simp at h
      | some si =>
          simp only [hfs] at h
          cases hft : HFSorter.find_cluster st.cluster_list pred with
          | none => simp only [hft] at h; simp at h
          | some ti =>
              simp only [hft] at h
              by_cases hne : si = ti
              · rw [if_pos hne] at h
                simp only [Except.ok.injEq] at h
                rw [← h]
                simp
              · rw [if_neg hne] at h
                simp only [Except.ok.injEq] at h
                rw [← h]
                exact ⟨rfl, rfl, rfl, Or.inr ⟨si, ti, hne, rfl⟩⟩

/-- Invariant preservation through the sorter loop. -/
theorem sort_loop_inv (P : SorterState → Prop)
    (hstep : ∀ st n st1, P st → HFSorter.sort_step st n = .ok st1 → P st1) :
    ∀ (l : List Node) (st st1 : SorterState),
      P st → HFSorter.sort_loop l st = .ok st1 → P st1 := by
  intro l
  induction l with
  | nil =>
      intro st st1 hP h
      rw [HFSorter.sort_loop_nil] at h
      cases h
      exact hP
  | cons a t ih =>
      intro st st1 hP h
      rw [HFSorter.sort_loop_cons] at h
      cases hs : HFSorter.sort_step st a with
      | error e => rw [hs] at h; simp [Except.bind] at h
      | ok s2 =>
          rw [hs] at h
          simp only [Except.bind] at h
          exact ih s2 st1 (hstep st a s2 hP hs) h

/-- The initial singleton cluster of a pool node is well formed. -/
theorem ClusterWF_init (ps : Nat) (pool : List Node) (n : Node)
    (hn : n ∈ pool) : ClusterWF ps pool (Cluster.init n ps) := by
  refine ⟨rfl, rfl, rfl, by simp [Cluster.init, Cluster.update_density], ?_,
    Or.inl ⟨n, hn, rfl⟩⟩
  intro m hm
  simp [Cluster.init, Cluster.update_density] at hm
  rw [hm]
  exact hn

/-- One merge attempt preserves well-formedness of every active
cluster. -/
theorem ClusterWF_merge_clusters (ps : Nat) (pool : List Node)
    (cs : List Cluster) (si ti : Nat)
    (hwf : ∀ c ∈ cs, ClusterWF ps pool c) :
    ∀ c ∈ HFSorter.merge_clusters cs si ti, ClusterWF ps pool c := by
  intro c hc
  rcases mem_merge_clusters cs si ti c hc with h | ⟨sc, tc, hs, ht, hrej, heq⟩
  · exact hwf c h
  · obtain ⟨hacc, hle⟩ := Cluster.check_accepted_eq sc tc hrej
    have hscm : sc ∈ cs := by
      rcases List.getElem?_eq_some.mp hs with ⟨h1, h2⟩
      rw [← h2]
      exact List.getElem_mem h1
    have htcm : tc ∈ cs := by
      rcases List.getElem?_eq_some.mp ht with ⟨h1, h2⟩
      rw [← h2]
      exact List.getElem_mem h1
    obtain ⟨hps, hsz, _, hne, hmem, _⟩ := hwf sc hscm
    obtain ⟨_, htz, _, _, htmem, _⟩ := hwf tc htcm
    rw [hacc] at heq
    subst heq
    refine ⟨hps, rfl, rfl, ?_, ?_, Or.inr ?_⟩
    · simp only [Cluster.update_density_nodes, ne_eq, List.append_eq_nil]
      intro hnil
      exact hne hnil.1
    · intro m hm
      rw [Cluster.update_density_nodes] at hm
      simp at hm
      rcases hm with hm | hm
      · exact hmem m hm
      · exact htmem m hm
    · rw [Cluster.update_density_total_size]
      simp only [List.map_append, List.sum_append]
      rw [← hsz, ← htz]
      rw [hps] at hle
      exact hle

/-- The initial sorter state is well formed over its input pool. -/
theorem StateWF_init (args : Args) (nodes : List Node) :
    StateWF args.pagesize nodes (HFSorter.init args nodes) := by
  intro c hc
  simp [HFSorter.init] at hc
  rcases hc with ⟨n, hn, rfl⟩
  exact ClusterWF_init args.pagesize nodes n hn

/-- The sorter loop preserves well-formedness of the active clusters. -/
theorem sort_loop_StateWF (ps : Nat) (pool : List Node) (l : List Node)
    (st st1 : SorterState) (hwf : StateWF ps pool st)
    (h : HFSorter.sort_loop l st = .ok st1) : StateWF ps pool st1 := by
  refine sort_loop_inv (StateWF ps pool) ?_ l st st1 hwf h
  intro s n s1 hP hstep
  obtain ⟨_, _, _, hcl⟩ := sort_step_ok_shape s n s1 hstep
  rcases hcl with hcl | ⟨si, ti, _, hcl⟩
  · intro c hc
    rw [hcl] at hc
    exact hP c hc
  · intro c hc
    rw [hcl] at hc
    exact ClusterWF_merge_clusters ps pool s.cluster_list si ti hP c hc

/-- The sorter loop preserves the multiset of nodes across the active
cluster list. -/
theorem sort_loop_clusterNodes (l : List Node) (st st1 : SorterState)
    (h : HFSorter.sort_loop l st = .ok st1) :
    clusterNodes st1.cluster_list = clusterNodes st.cluster_list := by
  refine sort_loop_inv
    (fun s => clusterNodes s.cluster_list = clusterNodes st.cluster_list)
    ?_ l st st1 rfl h
  intro s n s1 hP hstep
  obtain ⟨_, _, _, hcl⟩ := sort_step_ok_shape s n s1 hstep
  rcases hcl with hcl | ⟨si, ti, hne, hcl⟩
  · rw [hcl]
    exact hP
  · rw [hcl, clusterNodes_merge_clusters s.cluster_list si ti hne]
    exact hP

/-- Initially the active clusters hold exactly the input nodes. -/
theorem clusterNodes_init (args : Args) (nodes : List Node) :
    clusterNodes (HFSorter.init args nodes).cluster_list = (nodes : Multiset Node) := by
  show clusterNodes (nodes.map (fun n => Cluster.init n args.pagesize)) = _
  induction nodes with
  | nil => rfl
  | cons n t ih =>
      simp only [List.map_cons]
      show ((Cluster.init n args.pagesize).nodes : Multiset Node) +
        clusterNodes (t.map (fun m => Cluster.init m args.pagesize)) = _
      rw [ih]
      show (([n] : List Node) : Multiset Node) + (t : Multiset Node) = _
      simp

/-- With debug logging disabled, the emitted sequence is the
concatenation of the member names of the density-sorted clusters. -/
theorem sort_functions_nodebug (cl : List Cluster) :
    HFSorter.sort_functions_in_clusters cl false =
      ((sortClustersByDensityDesc cl).map
        (fun c => c.nodes.map Node.function_name)).flatten := by
  unfold HFSorter.sort_functions_in_clusters
  simp only [Bool.false_eq_true, if_false]
  congr 1
  rw [show (fun p : Nat × Cluster => p.2.nodes.map Node.function_name) =
    ((fun c : Cluster => c.nodes.map Node.function_name) ∘ Prod.snd) from rfl]
  rw [← List.map_map, List.enum_map_snd]

/-- One loop iteration never reads the sorter's stored override
attribute: its result for any stored value is the result for any other,
with only the stored attribute carried along. -/
theorem sort_step_attr_invariant (nl : List Node) (cl : List Cluster)
    (v1 v2 : Option ℚ) (d : Bool) (i : Nat) (n : Node) :
    HFSorter.sort_step ⟨nl, cl, v1, d, i⟩ n =
      (HFSorter.sort_step ⟨nl, cl, v2, d, i⟩ n).map
        (fun s => ⟨s.node_list, s.cluster_list, v1, s.loglevel_debug, s.index⟩) := by
  unfold HFSorter.sort_step
  cases hp : HFSorter.get_most_likely_predecessor nl n with
  | none => rfl
  | some pred =>
      simp only
      cases hfs : HFSorter.find_cluster cl n with
      | none => rfl
      | some si =>
          simp only
          cases hft : HFSorter.find_cluster cl pred with
          | none => rfl
          | some ti =>
              simp only
              by_cases hne : si = ti
              · rw [if_pos hne, if_pos hne]
                rfl
              · rw [if_neg hne, if_neg hne]
                rfl

/-- The sorter loop never reads the stored override attribute. -/
theorem sort_loop_attr_invariant :
    ∀ (l : List Node) (nl : List Node) (cl : List Cluster)
      (v1 v2 : Option ℚ) (d : Bool) (i : Nat),
      HFSorter.sort_loop l ⟨nl, cl, v1, d, i⟩ =
        (HFSorter.sort_loop l ⟨nl, cl, v2, d, i⟩).map
          (fun s => ⟨s.node_list, s.cluster_list, v1, s.loglevel_debug, s.index⟩) := by
  intro l
  induction l with
  | nil => intro nl cl v1 v2 d i; rfl
  | cons a t ih =>
      intro nl cl v1 v2 d i
      rw [HFSorter.sort_loop_cons, HFSorter.sort_loop_cons]
      rw [sort_step_attr_invariant nl cl v1 v2 d i a]
      cases hs : HFSorter.sort_step ⟨nl, cl, v2, d, i⟩ a with
      | error e => rfl
      | ok s2 =>
          obtain ⟨s2nl, s2cl, s2v, s2d, s2i⟩ := s2
          obtain ⟨_, hattr, _, _⟩ :=
            sort_step_ok_shape ⟨nl, cl, v2, d, i⟩ a ⟨s2nl, s2cl, s2v, s2d, s2i⟩ hs
          simp only at hattr
          rw [hattr]
          show HFSorter.sort_loop t ⟨s2nl, s2cl, v1, s2d, s2i⟩ = _
          rw [ih s2nl s2cl v1 v2 s2d s2i]
          rfl

/-- Invariant preservation through the graph-builder row loop. -/
theorem parse_loop_inv (P : ParseState → Prop)
    (f : ParseState → Row → Except String ParseState)
    (hstep : ∀ s a s1, P s → f s a = .ok s1 → P s1) :
    ∀ (l : List Row) (s s1 : ParseState),
      P s → List.foldlM f s l = .ok s1 → P s1 := by
  intro l
  induction l with
  | nil =>
      intro s s1 hP h
      cases h
      exact hP
  | cons a t ih =>
      intro s s1 hP h
      rw [List.foldlM_cons] at h
      cases hs : f s a with
      | error e => rw [hs] at h; simp [Bind.bind, Except.bind] at h
      | ok s2 =>
          rw [hs] at h
          simp only [Bind.bind, Except.bind] at h
          exact ih s2 s1 (hstep s a s2 hP hs) h

/-- The node-building scan never changes the node's stored size. -/
theorem foldl_create_size (ta : String) (ts : Nat) :
    ∀ (values : List Row) (acc : Node),
      (values.foldl (fun node el =>
        if el.target_symbol = ta then
          let node1 := node.add_samples el.samples ts
          if el.source_symbol ≠ ta then
            node1.add_predecessor
              (Predecessor.ofRow el.source_symbol el.samples ts)
          else node1
        else node) acc).size = acc.size := by
  intro values
  induction values with
  | nil => intro acc; rfl
  | cons e t ih =>
      intro acc
      rw [List.foldl_cons]
      rw [ih]
      by_cases h1 : e.target_symbol = ta
      · by_cases h2 : e.source_symbol ≠ ta
        · simp [h1, h2, Node.add_samples, Node.add_predecessor]
        · simp [h1, h2, Node.add_samples]
      · simp [h1]

/-- `create_new_node` resolves to a node carrying exactly the resolved
symbol size. -/
theorem create_new_node_size (values : List Row) (symbol_size : Nat)
    (ta_sy : String) (total_samples : Nat) :
    (create_new_node values symbol_size ta_sy total_samples).size =
      symbol_size := by
  unfold create_new_node
  rw [foldl_create_size]

/-- One graph-builder iteration only ever appends nodes of positive
size (zero, unknown and missing sizes are skipped). -/
theorem parse_step_pos (szl : Option (List (String × Nat))) (ts : Nat)
    (dbg : Bool) (values : List Row) (s : ParseState) (e : Row)
    (s1 : ParseState) (hP : ∀ n ∈ s.node_list, 0 < n.size)
    (h : parse_step szl ts dbg values s e = .ok s1) :
    ∀ n ∈ s1.node_list, 0 < n.size := by
  unfold parse_step at h
  by_cases h1 : s.examined_nodes.contains e.target_symbol
  · rw [if_pos h1] at h
    cases h
    exact hP
  · rw [if_neg h1] at h
    by_cases h2 : is_hex e.target_symbol = true
    · rw [if_pos h2] at h
      cases h
      exact hP
    · rw [if_neg h2] at h
      simp only at h
      cases hg : get_symbol_size e szl e.target_symbol
          s.not_found_size_symbols dbg with
      | error msg => rw [hg] at h; simp at h
      | ok pair =>
          rw [hg] at h
          obtain ⟨symbol_size, cnt⟩ := pair
          simp only at h
          match hsz : symbol_size with
          | some (Nat.succ k) =>
              simp only [Except.ok.injEq] at h
              rw [← h]
              intro n hn
              simp at hn
              rcases hn with hn | hn
              · exact hP n hn
              · rw [hn, create_new_node_size]
                exact Nat.succ_pos k
          | some 0 =>
              simp only at h
              cases hc : (if dbg then pyIncr cnt else .ok cnt) with
              | error msg => rw [hc] at h; simp at h
              | ok c2 =>
                  rw [hc] at h
                  simp only [Except.ok.injEq] at h
                  rw [← h]
                  exact hP
          | none =>
              simp only at h
              cases hc : (if dbg then pyIncr cnt else .ok cnt) with
              | error msg => rw [hc] at h; simp at h
              | ok c2 =>
                  rw [hc] at h
                  simp only [Except.ok.injEq] at h
                  rw [← h]
                  exact hP

/-- Every node produced by the graph builder carries a positive size. -/
theorem parse_nodes_pos (values : List Row) (total_samples : Nat)
    (szl : Option (List (String × Nat))) (dbg : Bool) (nodes : List Node)
    (h : parse_and_combine values total_samples szl dbg = .ok nodes) :
    ∀ n ∈ nodes, 0 < n.size := by
  unfold parse_and_combine at h
  cases hf : values.foldlM (parse_step szl total_samples dbg values)
      { node_list := []
        examined_nodes := []
        not_found_size_symbols := some 0
        correct_symbols := 0
        hex_symbols := 0 } with
  | error msg => rw [hf] at h; simp at h
  | ok st =>
      rw [hf] at h
      simp only [Except.ok.injEq] at h
      rw [← h]
      refine parse_loop_inv (fun s => ∀ n ∈ s.node_list, 0 < n.size)
        (parse_step szl total_samples dbg values) ?_ values _ st (by simp) hf
      intro s a s1 hP hstep
      exact parse_step_pos szl total_samples dbg values s a s1 hP hstep

/-- The cluster-node multiset is the coercion of the concatenated member
lists. -/
theorem clusterNodes_eq_coe_flatten (cs : List Cluster) :
    clusterNodes cs = (((cs.map Cluster.nodes).flatten : List Node) : Multiset Node) := by
  induction cs with
  | nil => rfl
  | cons c t ih =>
      show (c.nodes : Multiset Node) + clusterNodes t = _
      rw [ih]
      simp

/-- The sorter loop preserves the debug flag of the state. -/
theorem sort_loop_loglevel (l : List Node) (st st1 : SorterState)
    (h : HFSorter.sort_loop l st = .ok st1) :
    st1.loglevel_debug = st.loglevel_debug := by
  refine sort_loop_inv (fun s => s.loglevel_debug = st.loglevel_debug)
    ?_ l st st1 rfl h
  intro s n s1 hP hstep
  obtain ⟨_, _, hd, _⟩ := sort_step_ok_shape s n s1 hstep
  rw [hd]
  exact hP

unseal Rat.add Rat.mul Rat.inv Rat.sub

/-- C1: the merge-admission test `check_cluster_merge` rejects exactly
when the combined size exceeds the page size or when the source's
density exceeds the candidate density
`(source.total_time + target.total_time) / (source.total_size +
target.total_size)` times the degrade factor; in every other case the
merge is accepted. (The hypothesis keeps the statement inside the
domain where the Python division is defined; see C10.) -/
theorem C1_check_cluster_merge_rejects_iff (c other : Cluster)
    (h : 0 < c.total_size + other.total_size) :
    (Cluster.check_cluster_merge c other).1 = true ↔
      (c.page_size < c.total_size + other.total_size ∨
       ((c.total_time : ℚ) + (other.total_time : ℚ)) /
          ((c.total_size : ℚ) + (other.total_size : ℚ)) *
          c.k_caller_degrade_factor < c.density) := by
  by_cases h1 : c.page_size < c.total_size + other.total_size
  · unfold Cluster.check_cluster_merge
    simp [h1]
  · by_cases h2 : ((c.total_time : ℚ) + (other.total_time : ℚ)) /
        ((c.total_size : ℚ) + (other.total_size : ℚ)) *
        c.k_caller_degrade_factor < c.density
    · unfold Cluster.check_cluster_merge
      simp [h1, h2]
    · unfold Cluster.check_cluster_merge
      simp [h1, h2]

/-- Witness for C1 at the Scenario D clusters (combined size 120 over
page size 100, so the test rejects by overflow). -/
theorem C1_witness :
    0 < exClusterD1.total_size + exClusterD2.total_size ∧
      ((Cluster.check_cluster_merge exClusterD1 exClusterD2).1 = true ↔
        (exClusterD1.page_size <
            exClusterD1.total_size + exClusterD2.total_size ∨
         ((exClusterD1.total_time : ℚ) + (exClusterD2.total_time : ℚ)) /
            ((exClusterD1.total_size : ℚ) + (exClusterD2.total_size : ℚ)) *
            exClusterD1.k_caller_degrade_factor < exClusterD1.density)) :=
  ⟨by decide,
   C1_check_cluster_merge_rejects_iff exClusterD1 exClusterD2 (by decide)⟩

/-- C2 as stated is false on the code: on Scenario A the emitted
ordering is not `A, B, C`. -/
theorem C2_counterexample :
    HFSorter.sort exArgs [exNodeA, exNodeB, exNodeC] ≠
      Except.ok ["A", "B", "C"] := by
  decide

/-- C2 (amended): on Scenario A, `sort` merges `A` and `B` into one
cluster and leaves `C` a singleton, but the merged cluster's internal
order is `[B, A]` (the processed node's own cluster first, then the
absorbed predecessor cluster), so the emitted ordering is `B, A, C`. -/
theorem C2_scenario_output :
    HFSorter.sort exArgs [exNodeA, exNodeB, exNodeC] =
      Except.ok ["B", "A", "C"] ∧
    (HFSorter.sort_loop
        (sortNodesBySamplesDesc
          (HFSorter.init exArgs [exNodeA, exNodeB, exNodeC]).node_list)
        (HFSorter.init exArgs [exNodeA, exNodeB, exNodeC])).map
      (fun st => st.cluster_list.map (fun c => c.nodes.map Node.function_name)) =
      Except.ok [["B", "A"], ["C"]] := by
  constructor
  · decide
  · decide

/-- C3 as stated is false on the code: with the override `k_min_prob = 0`
supplied, the clustering result differs from the spec-modelled variant
in which every merge-admission test uses the override in place of 8
(the code still merges `B` with `A`; the override would reject it). -/
theorem C3_counterexample :
    exArgsOverride.k_min_prob = some 0 ∧
    HFSorter.sort exArgsOverride [exNodeA, exNodeB, exNodeC] =
      Except.ok ["B", "A", "C"] ∧
    HFSorter.sort_spec_override exArgsOverride [exNodeA, exNodeB, exNodeC] =
      Except.ok ["A", "B", "C"] ∧
    HFSorter.sort exArgsOverride [exNodeA, exNodeB, exNodeC] ≠
      HFSorter.sort_spec_override exArgsOverride [exNodeA, exNodeB, exNodeC] := by
  refine ⟨rfl, by decide, by decide, by decide⟩

/-- C3 (amended): the supplied override is stored in an attribute of the
sorter that no merge-admission test ever reads (the clusters keep their
own constant degrade factor 8), so the result of `sort` does not depend
on `k_min_prob` at all. -/
theorem C3_override_never_used (p : Nat) (v : Option ℚ) (d : Bool)
    (nodes : List Node) :
    HFSorter.sort { pagesize := p, k_min_prob := v, loglevel_debug := d } nodes =
      HFSorter.sort { pagesize := p, k_min_prob := none, loglevel_debug := d }
        nodes := by
  unfold HFSorter.sort HFSorter.init
  simp only
  rw [sort_loop_attr_invariant
    (sortNodesBySamplesDesc (sortNodesBySamplesDesc nodes))
    (sortNodesBySamplesDesc nodes)
    (nodes.map (fun node => Cluster.init node p)) v none d 0]
  cases hr : HFSorter.sort_loop
      (sortNodesBySamplesDesc (sortNodesBySamplesDesc nodes))
      ⟨sortNodesBySamplesDesc nodes,
        nodes.map (fun node => Cluster.init node p), none, d, 0⟩ with
  | error e => rfl
  | ok s => rfl

/-- C4: with debug logging disabled, the sequence returned by `sort` is
a permutation of exactly the input nodes' function names. -/
theorem C4_sort_output_is_permutation (args : Args) (nodes : List Node)
    (out : List String) (hdbg : args.loglevel_debug = false)
    (h : HFSorter.sort args nodes = .ok out) :
    List.Perm out (nodes.map Node.function_name) := by
  unfold HFSorter.sort at h
  simp only at h
  cases hr : HFSorter.sort_loop
      (sortNodesBySamplesDesc (HFSorter.init args nodes).node_list)
      (HFSorter.init args nodes) with
  | error e => rw [hr] at h; simp at h
  | ok st1 =>
      rw [hr] at h
      simp only [Except.ok.injEq] at h
      have hd : st1.loglevel_debug = false := by
        rw [sort_loop_loglevel _ _ _ hr]
        show args.loglevel_debug = false
        exact hdbg
      rw [hd] at h
      rw [sort_functions_nodebug] at h
      have hms : clusterNodes st1.cluster_list = (nodes : Multiset Node) := by
        rw [sort_loop_clusterNodes _ _ _ hr, clusterNodes_init]
      have hperm1 : List.Perm
          (((sortClustersByDensityDesc st1.cluster_list).map
            (fun c => c.nodes.map Node.function_name)).flatten)
          ((st1.cluster_list.map
            (fun c => c.nodes.map Node.function_name)).flatten) :=
        ((List.perm_insertionSort _ st1.cluster_list).map _).flatten
      have heq2 : (st1.cluster_list.map
          (fun c => c.nodes.map Node.function_name)).flatten =
          ((st1.cluster_list.map Cluster.nodes).flatten).map
            Node.function_name := by
        rw [show (fun c : Cluster => c.nodes.map Node.function_name) =
          (List.map Node.function_name ∘ Cluster.nodes) from rfl]
        rw [← List.map_map, List.map_flatten]
      have hperm3 : List.Perm
          ((st1.cluster_list.map Cluster.nodes).flatten) nodes := by
        apply Multiset.coe_eq_coe.mp
        rw [← clusterNodes_eq_coe_flatten]
        exact hms
      rw [← h]
      apply List.Perm.trans hperm1
      rw [heq2]
      exact hperm3.map Node.function_name

/-- Witness for C4 at Scenario A: the emitted `["B", "A", "C"]` is a
permutation of the input names `["A", "B", "C"]`. -/
theorem C4_witness :
    List.Perm (["B", "A", "C"] : List String)
      ([exNodeA, exNodeB, exNodeC].map Node.function_name) :=
  C4_sort_output_is_permutation exArgs [exNodeA, exNodeB, exNodeC]
    ["B", "A", "C"] rfl (by decide)

/-- C5: no merge ever produces a cluster whose `total_size` exceeds
`page_size`: at every point of a run, an active cluster exceeding the
page size is an untouched initial singleton — its excess comes from its
single input node, never from a merge. -/
theorem C5_capacity_only_initial_singletons (args : Args)
    (nodes : List Node) (k : Nat) (st1 : SorterState)
    (h : HFSorter.runPrefix args nodes k = .ok st1)
    (c : Cluster) (hc : c ∈ st1.cluster_list)
    (hover : args.pagesize < c.total_size) :
    ∃ n ∈ nodes, c.nodes = [n] ∧ c = Cluster.init n args.pagesize ∧
      c.total_size = n.size := by
  unfold HFSorter.runPrefix at h
  have hwf := sort_loop_StateWF args.pagesize nodes _ _ _
    (StateWF_init args nodes) h
  obtain ⟨hps, hsz, _, _, _, hcap⟩ := hwf c hc
  rcases hcap with ⟨n, hn, heq⟩ | hle
  · refine ⟨n, hn, ?_, heq, ?_⟩
    · rw [heq]
      rfl
    · rw [heq]
      show (n.size + 0) = n.size
      omega
  · exfalso
    omega

/-- Witness for C5: a single node of size 1000 with page size 100 — the
only oversized cluster is its initial singleton. -/
theorem C5_witness :
    ∃ n ∈ [exNodeC], (Cluster.init exNodeC 100).nodes = [n] ∧
      Cluster.init exNodeC 100 = Cluster.init n 100 ∧
      (Cluster.init exNodeC 100).total_size = n.size :=
  C5_capacity_only_initial_singletons exArgsSmall [exNodeC] 0
    (HFSorter.init exArgsSmall [exNodeC]) rfl
    (Cluster.init exNodeC 100) (by decide) (by decide)

/-- C6: a rejected merge (page overflow or density guard) leaves both
clusters unchanged — the admission test returns the source untouched and
`_merge_clusters` keeps the active cluster list identical, so both
clusters stay in it with all their fields intact. -/
theorem C6_rejected_merge_is_frame (cs : List Cluster) (si ti : Nat)
    (sc tc : Cluster) (hs : cs[si]? = some sc) (ht : cs[ti]? = some tc)
    (hrej : (Cluster.check_cluster_merge sc tc).1 = true) :
    (Cluster.check_cluster_merge sc tc).2 = sc ∧
      HFSorter.merge_clusters cs si ti = cs := by
  have heq := Cluster.check_rejected_eq sc tc hrej
  constructor
  · rw [heq]
  · unfold HFSorter.merge_clusters
    rw [hs, ht]
    simp only [heq]

/-- Witness for C6 at Scenario D: page size 100 and two size-60
clusters — the merge is rejected purely on overflow and both clusters
stay unchanged in the list. -/
theorem C6_witness :
    (Cluster.check_cluster_merge exClusterD1 exClusterD2).2 = exClusterD1 ∧
      HFSorter.merge_clusters [exClusterD1, exClusterD2] 0 1 =
        [exClusterD1, exClusterD2] :=
  C6_rejected_merge_is_frame [exClusterD1, exClusterD2] 0 1
    exClusterD1 exClusterD2 rfl rfl (by decide)

/-- C7: the claim describes the intended recoverable `NotFound` path,
but the code crashes instead: with no size table supplied,
`get_symbol_size` runs `int(element.get("symbol_size"))`, so a row
without an embedded size raises `TypeError` and the whole row loop
aborts rather than skipping the target and continuing. -/
theorem C7_missing_size_without_table_crashes :
    get_symbol_size exRowNoSize none "foo" (some 0) false =
      .error "TypeError: int() argument must be a string, a bytes-like object or a number, not NoneType" ∧
    parse_and_combine [exRowNoSize] 100 none false =
      .error "TypeError: int() argument must be a string, a bytes-like object or a number, not NoneType" := by
  constructor
  · rfl
  · rfl

/-- C8: a node with no predecessors, or whose best predecessor falls
below `K_MIN_ARC_PROBABILITY`, is skipped: the loop iteration leaves the
cluster list (and everything else) unchanged and only increments the
no-usable-predecessor counter. -/
theorem C8_below_threshold_skips (st : SorterState) (node : Node)
    (h : node.predecessors = [] ∨
      ∃ p, node.get_biggest_predecessor = some p ∧
        p.weight_to_target < K_MIN_ARC_PROBABILITY) :
    HFSorter.sort_step st node = .ok { st with index := st.index + 1 } := by
  have hnone : HFSorter.get_most_likely_predecessor st.node_list node =
      none := by
    rcases h with h | ⟨p, hp, hw⟩
    · unfold HFSorter.get_most_likely_predecessor
      simp [Node.get_biggest_predecessor, h]
    · unfold HFSorter.get_most_likely_predecessor
      rw [hp]
      simp [hw]
  unfold HFSorter.sort_step
  rw [hnone]

/-- Witness for C8: node `A` has no predecessors, so the step only
increments the counter. -/
theorem C8_witness :
    HFSorter.sort_step (HFSorter.init exArgs [exNodeA]) exNodeA =
      .ok { HFSorter.init exArgs [exNodeA] with
              index := (HFSorter.init exArgs [exNodeA]).index + 1 } :=
  C8_below_threshold_skips (HFSorter.init exArgs [exNodeA]) exNodeA
    (Or.inl rfl)

/-- C9: when a processed node (or its resolved predecessor) is not
contained in any active cluster, the run terminates fatally with the
`sys.exit` diagnostic naming the offending function — the rest of the
loop is never executed. -/
theorem C9_cluster_lookup_is_fatal (st : SorterState) (node pred : Node)
    (rest : List Node)
    (hpred : HFSorter.get_most_likely_predecessor st.node_list node =
      some pred) :
    (HFSorter.find_cluster st.cluster_list node = none →
      HFSorter.sort_loop (node :: rest) st =
        .error ("ERROR Cluster index for node " ++ node.function_name ++
          " could not be found")) ∧
    (∀ si, HFSorter.find_cluster st.cluster_list node = some si →
      HFSorter.find_cluster st.cluster_list pred = none →
      HFSorter.sort_loop (node :: rest) st =
        .error ("ERROR Cluster index for node " ++ pred.function_name ++
          " could not be found")) := by
  constructor
  · intro hfind
    rw [HFSorter.sort_loop_cons]
    unfold HFSorter.sort_step
    simp only [hpred, hfind]
    rfl
  · intro si hsome hfind
    rw [HFSorter.sort_loop_cons]
    unfold HFSorter.sort_step
    simp only [hpred, hsome, hfind]
    rfl

/-- Witness for C9: node `B` resolves predecessor `A`, but the active
cluster list has been emptied, so the run aborts naming `B`. -/
theorem C9_witness :
    HFSorter.sort_loop [exNodeB] exStateNoClusters =
      .error ("ERROR Cluster index for node " ++ exNodeB.function_name ++
        " could not be found") :=
  (C9_cluster_lookup_is_fatal exStateNoClusters exNodeB exNodeA []
    (by decide)).1 rfl

/-- C10: every cluster ever held in the active cluster list has
positive `total_size` — the graph builder only creates nodes of
positive resolved size and merges only combine existing clusters — so
the division `total_time / total_size` of `_update_density` never
divides by zero. -/
theorem C10_total_size_always_positive (values : List Row)
    (total_samples : Nat) (szl : Option (List (String × Nat))) (dbg : Bool)
    (nodes : List Node) (args : Args) (k : Nat) (st1 : SorterState)
    (hparse : parse_and_combine values total_samples szl dbg = .ok nodes)
    (hrun : HFSorter.runPrefix args nodes k = .ok st1) :
    ∀ c ∈ st1.cluster_list, 0 < c.total_size := by
  have hpos := parse_nodes_pos values total_samples szl dbg nodes hparse
  unfold HFSorter.runPrefix at hrun
  have hwf := sort_loop_StateWF args.pagesize nodes _ _ _
    (StateWF_init args nodes) hrun
  intro c hc
  obtain ⟨_, hsz, _, hne, hmem, _⟩ := hwf c hc
  cases hnodes : c.nodes with
  | nil => exact absurd hnodes hne
  | cons n t =>
      have hn : 0 < n.size := hpos n (hmem n (by rw [hnodes]; simp))
      rw [hsz, hnodes]
      simp only [List.map_cons, List.sum_cons]
      omega

/-- Witness for C10: the one-row report yields node `foo` of size 30,
whose initial singleton cluster has positive total size. -/
theorem C10_witness : 0 < (Cluster.init exNodeFoo 4096).total_size :=
  C10_total_size_always_positive [exRowFoo] 100 none false [exNodeFoo]
    exArgs 0 (HFSorter.init exArgs [exNodeFoo]) rfl rfl
    (Cluster.init exNodeFoo 4096) (by decide)
